import Mathlib

/-!
Verification of the jobbot repository (Python sources under jobbot/):
a shallow embedding in Lean 4 of the text utilities, the scorer
(matcher.py), the deduplicator and the gate pipeline (run_cycle.py),
together with theorems settling the specification claims.

Strings are modelled as Lean strings; Python's str.lower() is modelled
by ASCII lower-casing (all vocabulary in the program is ASCII), and
Python's `in` substring test by an explicit list-infix check.
-/

namespace Jobbot

/-- ASCII lower-casing of one character, as Python's str.lower() acts on
the ASCII range (the only range the program's keywords use). -/
def lowerChar (c : Char) : Char :=
  if 65 ≤ c.toNat ∧ c.toNat ≤ 90 then Char.ofNat (c.toNat + 32) else c

/-- Models Python str.lower(). -/
def lowerStr (s : String) : String :=
  ⟨s.data.map lowerChar⟩

/-- Substring containment on character lists: does the haystack contain
the needle as a contiguous infix?  Models Python's `needle in hay`. -/
def listContains (needle : List Char) : List Char → Bool
  | [] => needle.isPrefixOf []
  | c :: rest => needle.isPrefixOf (c :: rest) || listContains needle rest

/-- Models Python's `needle in hay` on strings. -/
def strContains (hay needle : String) : Bool :=
  listContains needle.data hay.data

theorem toNat_ofNat_of_valid {n : Nat} (h : n.isValidChar) :
    (Char.ofNat n).toNat = n := by
  simp only [Char.ofNat, h, dite_true, Char.ofNatAux, Char.toNat, UInt32.toNat]
  simp [BitVec.toNat_ofNatLt]

theorem lowerChar_not_upper (c : Char) :
    ¬ (65 ≤ (lowerChar c).toNat ∧ (lowerChar c).toNat ≤ 90) := by
  unfold lowerChar
  by_cases h : 65 ≤ c.toNat ∧ c.toNat ≤ 90
  · rw [if_pos h]
    have hv : (c.toNat + 32).isValidChar := Or.inl (by omega)
    rw [toNat_ofNat_of_valid hv]
    omega
  · rw [if_neg h]
    exact h

theorem lowerChar_idem (c : Char) : lowerChar (lowerChar c) = lowerChar c := by
  conv in lowerChar (lowerChar c) => rw [lowerChar]
  rw [if_neg (lowerChar_not_upper c)]

theorem lowerStr_idem (s : String) : lowerStr (lowerStr s) = lowerStr s := by
  unfold lowerStr
  congr 1
  rw [List.map_map]
  exact List.map_congr_left (fun c _ => by simp [Function.comp, lowerChar_idem])

/-- A job record: models the job dict built by the fetchers
(keys source, title, company, link, snippet, posted_at, location) plus
the keys other parts of the code may read or write: "applicants"
(read defensively by the scorer; absent from fetcher output),
"score" (written by score_job) and "matchedSignals" (the spec's
data-model attribute; optional since a dict may or may not carry it).
A missing text key read via dict.get(key, "") is modelled as "". -/
structure Job where
  source : String := ""
  title : String := ""
  company : String := ""
  link : String := ""
  snippet : String := ""
  posted_at : String := ""
  location : String := ""
  applicants : Option Int := none
  score : Option Int := none
  matchedSignals : Option (List String) := none
deriving DecidableEq

/-- The configuration keys recognised by the program (spec §6), as
loaded from config.yaml.  Defaults mirror the cfg.get(...) defaults. -/
structure Config where
  score_threshold : Int := 30
  email : String := ""
  location_priority : List String := []
  required_keywords : List String := []
  global_allow_visa_sponsor : Bool := true
  product_company_only : Bool := true
  max_applicants_for_low : Int := 30
deriving DecidableEq

/- ---------------------------------------------------------------
   matcher.py
--------------------------------------------------------------- -/

/-- Models Python urlparse(url).netloc: the text between a leading
"//" (which may follow a "scheme:" made of an initial letter and
letters, digits, '+', '-', '.') and the next '/', '?' or '#'; a URL
without "//" there has an empty netloc. -/
def urlNetloc (url : String) : String :=
  let cs := url.data
  let isSchemeChar := fun c : Char => c.isAlphanum || c == '+' || c == '-' || c == '.'
  let pre := cs.takeWhile isSchemeChar
  let afterScheme :=
    match cs.drop pre.length with
    | ':' :: rest =>
      if pre.length > 0 && (pre.headD 'a').isAlpha then rest else cs
    | _ => cs
  match afterScheme with
  | '/' :: '/' :: rest =>
    ⟨rest.takeWhile (fun c => !(c == '/' || c == '?' || c == '#'))⟩
  | _ => ""

/-- The product-company keyword list of matcher.is_product_company. -/
def product_signals : List String :=
  ["product", "saas", "startup", "platform", "stripe", "airbnb",
   "google", "microsoft", "amazon", "chargebee", "razorpay",
   "browserstack", "freshworks", "postman", "flipkart", "zoho"]

/-- matcher.is_product_company: checks the link's domain and the
company name for the product-company keywords (loop with early
return True, i.e. an any). -/
def is_product_company (job : Job) : Bool :=
  let domain := lowerStr (urlNetloc job.link)
  let company := lowerStr job.company
  product_signals.any (fun s => strContains domain s || strContains company s)

/-- The loop body of matcher.location_score: i is the enumerate index,
n the length of the configured location_priority list; a matching
location at index i adds (n - i) * 12. -/
def locScoreAux (title link : String) (n : Int) : Int → List String → Int
  | _, [] => 0
  | i, loc :: rest =>
      (if strContains title (lowerStr loc) || strContains link (lowerStr loc)
       then (n - i) * 12 else 0)
      + locScoreAux title link n (i + 1) rest

/-- matcher.location_score. -/
def location_score (cfg : Config) (job : Job) : Int :=
  locScoreAux (lowerStr job.title) (lowerStr job.link)
    (cfg.location_priority.length : Int) 0 cfg.location_priority

/-- The fixed keyword list of matcher.visa_score. -/
def visa_keywords : List String :=
  ["visa", "sponsor", "sponsorship", "relocation", "work permit"]

/-- matcher.visa_score: reads ONLY the snippet field; 0 when the
global_allow_visa_sponsor flag is off, else 20 on the first matching
keyword (loop with early return, i.e. an any). -/
def visa_score (cfg : Config) (job : Job) : Int :=
  let snippet := lowerStr job.snippet
  if !cfg.global_allow_visa_sponsor then 0
  else if visa_keywords.any (fun kw => strContains snippet kw) then 20
  else 0

/-- matcher.keyword_score: +6 for each configured required keyword
appearing in lower-cased title+" "+snippet. -/
def keyword_score (cfg : Config) (job : Job) : Int :=
  let text := lowerStr (job.title ++ " " ++ job.snippet)
  cfg.required_keywords.foldl
    (fun s kw => if strContains text (lowerStr kw) then s + 6 else s) 0

/-- matcher.low_applicant_score: +10 when an applicant count is
present and at most the configured ceiling.  A malformed (non-integer)
count, which the Python except-branch maps to 0, is modelled like an
absent one. -/
def low_applicant_score (cfg : Config) (job : Job) : Int :=
  match job.applicants with
  | none => 0
  | some a => if a ≤ cfg.max_applicants_for_low then 10 else 0

/-- The score total computed by matcher.score_job before it is stored
on the record. -/
def score_total (cfg : Config) (job : Job) : Int :=
  let s := location_score cfg job + keyword_score cfg job
           + visa_score cfg job + low_applicant_score cfg job
  if cfg.product_company_only && is_product_company job then s + 20
  else if is_product_company job then s + 10
  else s

/-- matcher.score_job: computes the total and stores it under the
"score" key of the record (the only key it writes), returning the
record. -/
def score_job (cfg : Config) (job : Job) : Job :=
  { job with score := some (score_total cfg job) }

/- ---------------------------------------------------------------
   run_cycle.py
--------------------------------------------------------------- -/

/-- The deduplication key of run_cycle.safe_jobs_deduplicate:
(lower-cased title, lower-cased company, raw link). -/
def jobKey (j : Job) : String × String × String :=
  (lowerStr j.title, lowerStr j.company, j.link)

/-- The loop of run_cycle.safe_jobs_deduplicate with its `seen` set
modelled as the list of keys inserted so far. -/
def dedupAux (seen : List (String × String × String)) :
    List Job → List Job
  | [] => []
  | j :: rest =>
    if jobKey j ∈ seen then dedupAux seen rest
    else j :: dedupAux (jobKey j :: seen) rest

/-- run_cycle.safe_jobs_deduplicate: keeps the first record for each
(lower-cased title, lower-cased company, link) key. -/
def safe_jobs_deduplicate (jobs : List Job) : List Job :=
  dedupAux [] jobs

/-- run_cycle.looks_like_azure_data: the mandatory relevance
predicate.  Lower-cases its argument itself (the caller passes an
already lower-cased text, making this a second, idempotent pass). -/
def looks_like_azure_data (text : String) : Bool :=
  let t := lowerStr text
  if strContains t "data engineer" then true
  else if strContains t "azure" && (strContains t "data" || strContains t "engineer") then true
  else false

/-- The junior-marker vocabulary of run_cycle.contains_junior_marker.
Note it contains "jr." in addition to the five words the spec lists. -/
def junior_markers : List String :=
  ["intern", "junior", "jr.", "trainee", "fresher", "entry"]

/-- run_cycle.contains_junior_marker (no lower-casing of its own). -/
def contains_junior_marker (text : String) : Bool :=
  junior_markers.any (fun w => strContains text w)

/-- Python's regex class \s restricted to ASCII, as matched by the
\s* in run_cycle.parse_years' pattern. -/
def isPySpace (c : Char) : Bool :=
  c == ' ' || c == '\t' || c == '\n' || c == '\r' || c == '\x0b' || c == '\x0c'

/-- After the digits of run_cycle.parse_years' regex
(\d{1,2})\+?\s*(?:years|yrs|year): an optional '+', any whitespace,
then one of the unit words.  "years" is a prefix-extension of "year",
so the alternation succeeds exactly when "year" or "yrs" is a prefix
of the remaining text. -/
def yearsTail (cs : List Char) : Bool :=
  let cs1 := match cs with
    | '+' :: rest => rest
    | _ => cs
  let cs2 := cs1.dropWhile isPySpace
  "year".data.isPrefixOf cs2 || "yrs".data.isPrefixOf cs2

/-- Numeric value of a decimal digit character. -/
def digVal (c : Char) : Nat := c.toNat - 48

/-- Leftmost search of run_cycle.parse_years' regex: at each start
position a digit is required; the greedy \d{1,2} first tries two
digits and backtracks to one, as Python's re engine does. -/
def searchYears : List Char → Option Nat
  | [] => none
  | c :: rest =>
    if c.isDigit then
      match rest with
      | d :: rest2 =>
        if d.isDigit && yearsTail rest2 then some (10 * digVal c + digVal d)
        else if yearsTail rest then some (digVal c)
        else searchYears rest
      | [] => none
    else searchYears rest

/-- run_cycle.parse_years: None on empty text, else the first match of
(\d{1,2})\+?\s*(?:years|yrs|year) on the lower-cased text. -/
def parse_years (text : String) : Option Nat :=
  if text = "" then none
  else searchYears (lowerStr text).data

/-- The combined text run_cycle.main_once builds for the gates:
" ".join([title, snippet, company, location]).lower(). -/
def combined_text (j : Job) : String :=
  lowerStr (j.title ++ " " ++ j.snippet ++ " " ++ j.company ++ " " ++ j.location)

/-- Where the per-job loop of run_cycle.main_once stops for one
scored record: rejected at the relevance, junior, experience or
score gate, or passed through all gates to tailoring and email. -/
inductive Outcome where
  | rejRelevance
  | rejJunior
  | rejExperience
  | rejScore
  | emailed
deriving DecidableEq

/-- The score gate of run_cycle.main_once (step 4):
job.get("score", 0) < threshold rejects. -/
def score_gate (cfg : Config) (job : Job) : Outcome :=
  if job.score.getD 0 < cfg.score_threshold then Outcome.rejScore
  else Outcome.emailed

/-- The gate sequence of the per-job loop in run_cycle.main_once:
(1) mandatory relevance, (2) junior markers, (3) explicit years of
experience below 5, (4) score threshold; a record passing all four is
tailored and emailed. -/
def process_job (cfg : Config) (job : Job) : Outcome :=
  let t := combined_text job
  if !looks_like_azure_data t then Outcome.rejRelevance
  else if contains_junior_marker t then Outcome.rejJunior
  else if (match parse_years t with
           | some y => decide (y < 5)
           | none => false) then Outcome.rejExperience
  else score_gate cfg job

/-- The SMTP-credential environment read by run_cycle.main_once;
None models an absent variable. -/
structure Env where
  smtp_user : Option String := none
  smtp_pass : Option String := none
deriving DecidableEq

/-- Python's `not smtp_user or not smtp_pass`: an absent variable
(None) and an empty string are both falsy. -/
def creds_missing (env : Env) : Bool :=
  env.smtp_user.getD "" = "" || env.smtp_pass.getD "" = ""

/-- The externally observable side effects of one run of
run_cycle.main_once, in program order. -/
inductive Effect where
  | fetchIndeed (query location : String)
  | fetchCompany (url : String)
  | email (j : Job)
  | testPdf
deriving DecidableEq

/-- The effect trace of run_cycle.main_once, with the network treated
as an input: `pages` is the company-page list and `fetched` what the
fetchers returned.  The fetch phase, deduplication and scoring run
first; only then are the SMTP variables checked, and a missing one
makes main_once return before any email.  Per-job tailoring/email
exceptions (caught and logged in the code) are not modelled: each
record passing the gates contributes its email effect. -/
def main_once (cfg : Config) (pages : List String) (fetched : List Job)
    (env : Env) : List Effect :=
  let fetchFx := Effect.fetchIndeed "Azure Data Engineer" "Hyderabad"
                 :: pages.map Effect.fetchCompany
  let scored := (safe_jobs_deduplicate fetched).map (score_job cfg)
  if creds_missing env then fetchFx
  else
    let sent := scored.filter (fun j => process_job cfg j = Outcome.emailed)
    fetchFx ++ sent.map Effect.email
      ++ (if sent.isEmpty then [Effect.testPdf] else [])

/- ---------------------------------------------------------------
   Helper lemmas
--------------------------------------------------------------- -/

theorem lowerStr_combined (j : Job) :
    lowerStr (combined_text j) = combined_text j := by
  unfold combined_text
  exact lowerStr_idem _

theorem ite_ite_or (a b : Bool) :
    (if a then true else if b then true else false) = (a || b) := by
  cases a <;> cases b <;> rfl

theorem looks_like_azure_data_combined (j : Job) :
    looks_like_azure_data (combined_text j) =
      (strContains (combined_text j) "data engineer" ||
       (strContains (combined_text j) "azure" &&
        (strContains (combined_text j) "data" ||
         strContains (combined_text j) "engineer"))) := by
  unfold looks_like_azure_data
  rw [lowerStr_combined]
  exact ite_ite_or _ _

theorem process_job_eq_rejRelevance (cfg : Config) (j : Job)
    (h : looks_like_azure_data (combined_text j) = false) :
    process_job cfg j = Outcome.rejRelevance := by
  unfold process_job
  simp [h]

theorem process_job_ne_rejRelevance (cfg : Config) (j : Job)
    (h : looks_like_azure_data (combined_text j) = true) :
    process_job cfg j ≠ Outcome.rejRelevance := by
  unfold process_job score_gate
  simp only [h, Bool.not_true, Bool.false_eq_true, if_false]
  split
  · simp
  · split
    · simp
    · split <;> simp

theorem process_job_eq_rejJunior (cfg : Config) (j : Job)
    (h1 : looks_like_azure_data (combined_text j) = true)
    (h2 : contains_junior_marker (combined_text j) = true) :
    process_job cfg j = Outcome.rejJunior := by
  unfold process_job
  simp [h1, h2]

theorem process_job_ne_emailed_of_junior (cfg : Config) (j : Job)
    (h2 : contains_junior_marker (combined_text j) = true) :
    process_job cfg j ≠ Outcome.emailed := by
  unfold process_job
  cases hL : looks_like_azure_data (combined_text j) <;> simp [hL, h2]

theorem process_job_eq_rejExperience (cfg : Config) (j : Job) (y : Nat)
    (h1 : looks_like_azure_data (combined_text j) = true)
    (h2 : contains_junior_marker (combined_text j) = false)
    (h3 : parse_years (combined_text j) = some y) (h4 : y < 5) :
    process_job cfg j = Outcome.rejExperience := by
  unfold process_job
  simp [h1, h2, h3, h4]

theorem process_job_ne_emailed_of_years (cfg : Config) (j : Job) (y : Nat)
    (h3 : parse_years (combined_text j) = some y) (h4 : y < 5) :
    process_job cfg j ≠ Outcome.emailed := by
  unfold process_job
  cases hL : looks_like_azure_data (combined_text j)
  · simp [hL]
  · cases hJ : contains_junior_marker (combined_text j) <;>
      simp [hL, hJ, h3, h4]

theorem process_job_ne_rejExperience_of_none (cfg : Config) (j : Job)
    (h : parse_years (combined_text j) = none) :
    process_job cfg j ≠ Outcome.rejExperience := by
  unfold process_job score_gate
  cases hL : looks_like_azure_data (combined_text j)
  · simp [hL]
  · cases hJ : contains_junior_marker (combined_text j)
    · simp only [hL, Bool.not_true, Bool.false_eq_true, if_false, hJ, h]
      split <;> simp
    · simp [hL, hJ]

/-- The spec's mandatory relevance predicate, as worded in the claim,
over the lower-cased combined text of a record. -/
def relevantSpec (j : Job) : Prop :=
  strContains (combined_text j) "data engineer" = true ∨
  (strContains (combined_text j) "azure" = true ∧
   (strContains (combined_text j) "data" = true ∨
    strContains (combined_text j) "engineer" = true))

instance (j : Job) : Decidable (relevantSpec j) := by
  unfold relevantSpec
  infer_instance

theorem looks_iff_relevantSpec (j : Job) :
    looks_like_azure_data (combined_text j) = true ↔ relevantSpec j := by
  rw [looks_like_azure_data_combined]
  unfold relevantSpec
  simp [Bool.or_eq_true, Bool.and_eq_true]

/- ---------------------------------------------------------------
   Claims
--------------------------------------------------------------- -/

/-- C1: the orchestrator's mandatory relevance gate rejects a record
exactly when its lower-cased combined text (title, snippet, company,
location) contains neither the phrase "data engineer" nor "azure"
together with "data" or "engineer"; the decision is the same for
every value of the score field, so a failing record is rejected
without the score being consulted. -/
theorem C1_relevance_gate (cfg : Config) (j : Job) (s : Option Int) :
    process_job cfg { j with score := s } = Outcome.rejRelevance ↔
      ¬ relevantSpec j := by
  have hco : combined_text { j with score := s } = combined_text j := rfl
  have hrel : relevantSpec { j with score := s } ↔ relevantSpec j := Iff.rfl
  constructor
  · intro h hr
    have hl : looks_like_azure_data (combined_text { j with score := s }) = true := by
      rw [hco]
      exact (looks_iff_relevantSpec j).mpr hr
    exact process_job_ne_rejRelevance cfg _ hl h
  · intro hr
    apply process_job_eq_rejRelevance
    rw [hco]
    cases hl : looks_like_azure_data (combined_text j)
    · rfl
    · exact absurd ((looks_iff_relevantSpec j).mp hl) hr

/-- Witness for C1: the spec's scenario record (title "Backend
Developer", snippet "Java Spring Boot"), given a high score, is
rejected at the relevance gate. -/
theorem C1_relevance_gate_witness :
    process_job {} { title := "Backend Developer", snippet := "Java Spring Boot",
                     score := some 1000 } = Outcome.rejRelevance :=
  (C1_relevance_gate {} { title := "Backend Developer", snippet := "Java Spring Boot" }
    (some 1000)).mpr (by decide)

/-- The five junior-marker words the claim lists (the code's
junior_markers additionally contains "jr."). -/
def junior_spec_markers : List String :=
  ["intern", "junior", "trainee", "fresher", "entry"]

theorem junior_spec_sub (t : String)
    (h : ∃ w ∈ junior_spec_markers, strContains t w = true) :
    contains_junior_marker t = true := by
  rcases h with ⟨w, hw, hc⟩
  unfold contains_junior_marker
  rw [List.any_eq_true]
  refine ⟨w, ?_, hc⟩
  fin_cases hw <;> simp [junior_markers]

/-- C2: a record whose combined lower-cased text contains one of the
junior-marker words intern, junior, trainee, fresher or entry is never
emailed (hence never tailored), whatever its score; if it reaches the
junior gate at all (i.e. it passes the relevance gate), it is rejected
exactly there. -/
theorem C2_junior_gate (cfg : Config) (j : Job) (s : Option Int)
    (h : ∃ w ∈ junior_spec_markers, strContains (combined_text j) w = true) :
    process_job cfg { j with score := s } ≠ Outcome.emailed ∧
    (looks_like_azure_data (combined_text j) = true →
     process_job cfg { j with score := s } = Outcome.rejJunior) := by
  have hco : combined_text { j with score := s } = combined_text j := rfl
  have hj : contains_junior_marker (combined_text { j with score := s }) = true := by
    rw [hco]
    exact junior_spec_sub _ h
  refine ⟨process_job_ne_emailed_of_junior cfg _ hj, fun hl => ?_⟩
  exact process_job_eq_rejJunior cfg _ (by rw [hco]; exact hl) hj

/-- Witness for C2: the spec's scenario record (title "Data Engineer
Intern", snippet "Azure internship program"), given a high score, is
rejected at the junior gate and not emailed. -/
theorem C2_junior_gate_witness :
    process_job {} { title := "Data Engineer Intern",
                     snippet := "Azure internship program",
                     score := some 1000 } ≠ Outcome.emailed ∧
    process_job {} { title := "Data Engineer Intern",
                     snippet := "Azure internship program",
                     score := some 1000 } = Outcome.rejJunior := by
  have h := C2_junior_gate {}
    { title := "Data Engineer Intern", snippet := "Azure internship program" }
    (some 1000) (by decide)
  exact ⟨h.1, h.2 (by decide)⟩

/-- C4: if a years figure parses out of the combined text (pattern of
run_cycle.parse_years: one or two digits, optional "+", optional
whitespace, then "years"/"yrs"/"year") and is below the fixed minimum
of 5, the record is never emailed whatever its score, and if it
reaches the experience gate (passing relevance and junior gates) it is
rejected exactly there; if no figure parses, the experience gate never
rejects. -/
theorem C4_experience_gate (cfg : Config) (j : Job) :
    (∀ y : Nat, parse_years (combined_text j) = some y → y < 5 →
      (∀ s, process_job cfg { j with score := s } ≠ Outcome.emailed) ∧
      (looks_like_azure_data (combined_text j) = true →
       contains_junior_marker (combined_text j) = false →
       ∀ s, process_job cfg { j with score := s } = Outcome.rejExperience)) ∧
    (parse_years (combined_text j) = none →
      ∀ s, process_job cfg { j with score := s } ≠ Outcome.rejExperience) := by
  have hco : ∀ s, combined_text { j with score := s } = combined_text j :=
    fun _ => rfl
  constructor
  · intro y hy hy5
    constructor
    · intro s
      exact process_job_ne_emailed_of_years cfg _ y (by rw [hco]; exact hy) hy5
    · intro hl hj s
      exact process_job_eq_rejExperience cfg _ y
        (by rw [hco]; exact hl) (by rw [hco]; exact hj)
        (by rw [hco]; exact hy) hy5
  · intro hn s
    exact process_job_ne_rejExperience_of_none cfg _ (by rw [hco]; exact hn)

/-- Witness for C4: the spec's scenario snippet "3 years experience
required" (on an otherwise relevant record) is rejected at the
experience gate even with a high score, while a record with no years
figure is not rejected there. -/
theorem C4_experience_gate_witness :
    process_job {} { title := "Azure Data Engineer",
                     snippet := "3 years experience required",
                     score := some 1000 } = Outcome.rejExperience ∧
    process_job {} { title := "Azure Data Engineer",
                     snippet := "great job",
                     score := some 0 } ≠ Outcome.rejExperience := by
  constructor
  · exact ((C4_experience_gate {}
      { title := "Azure Data Engineer", snippet := "3 years experience required" }).1
      3 (by decide) (by decide)).2 (by decide) (by decide) (some 1000)
  · exact (C4_experience_gate {}
      { title := "Azure Data Engineer", snippet := "great job" }).2
      (by decide) (some 0)

/-- A concrete configuration in the shape config.yaml supplies
(keywords and a location list; the flag defaults). -/
def sampleConfig : Config :=
  { required_keywords := ["azure", "databricks"],
    location_priority := ["hyderabad"] }

theorem locScoreAux_congr (title₁ title₂ link : String) (n : Int)
    (l : List String)
    (h : ∀ loc ∈ l,
      (strContains title₁ (lowerStr loc) || strContains link (lowerStr loc)) =
      (strContains title₂ (lowerStr loc) || strContains link (lowerStr loc))) :
    ∀ i, locScoreAux title₁ link n i l = locScoreAux title₂ link n i l := by
  induction l with
  | nil => intro i; rfl
  | cons loc rest ih =>
    intro i
    unfold locScoreAux
    rw [h loc (List.mem_cons_self loc rest),
        ih (fun x hx => h x (List.mem_cons_of_mem loc hx)) (i + 1)]

theorem keyword_foldl_congr (text₁ text₂ : String) (l : List String)
    (h : ∀ kw ∈ l,
      strContains text₁ (lowerStr kw) = strContains text₂ (lowerStr kw)) :
    ∀ s : Int,
      l.foldl (fun s kw => if strContains text₁ (lowerStr kw) then s + 6 else s) s =
      l.foldl (fun s kw => if strContains text₂ (lowerStr kw) then s + 6 else s) s := by
  induction l with
  | nil => intro s; rfl
  | cons kw rest ih =>
    intro s
    simp only [List.foldl_cons]
    rw [h kw (List.mem_cons_self kw rest)]
    exact ih (fun x hx => h x (List.mem_cons_of_mem kw hx)) _

/-- Counterexample for C3: two records identical except for the title
— one titled "Data Engineer", one "Backend Developer" — receive the
same total score from the scorer under a concrete configuration, so no
title exact-match bonus was added for the "data engineer" phrase. -/
theorem C3_counterexample :
    strContains (lowerStr "Data Engineer") "data engineer" = true ∧
    strContains (lowerStr "Backend Developer") "data engineer" = false ∧
    (score_job sampleConfig { title := "Data Engineer" }).score = some 0 ∧
    (score_job sampleConfig { title := "Backend Developer" }).score = some 0 := by
  refine ⟨by decide, by decide, by decide, by decide⟩

/-- C3 amended: the scorer has no title exact-match bonus.  The title
influences the total only through the configured keyword and location
matches: two titles matching the same configured keywords (in
title+" "+snippet) and locations (in title or link) yield the same
total, in particular a title containing "data engineer" earns nothing
for the phrase itself. -/
theorem C3_no_title_bonus (cfg : Config) (j : Job) (t₁ t₂ : String)
    (hkw : ∀ kw ∈ cfg.required_keywords,
      strContains (lowerStr (t₁ ++ " " ++ j.snippet)) (lowerStr kw) =
      strContains (lowerStr (t₂ ++ " " ++ j.snippet)) (lowerStr kw))
    (hloc : ∀ loc ∈ cfg.location_priority,
      (strContains (lowerStr t₁) (lowerStr loc) ||
       strContains (lowerStr j.link) (lowerStr loc)) =
      (strContains (lowerStr t₂) (lowerStr loc) ||
       strContains (lowerStr j.link) (lowerStr loc))) :
    score_total cfg { j with title := t₁ } = score_total cfg { j with title := t₂ } := by
  have hlocEq : location_score cfg { j with title := t₁ } =
      location_score cfg { j with title := t₂ } :=
    locScoreAux_congr (lowerStr t₁) (lowerStr t₂) (lowerStr j.link) _ _ hloc 0
  have hkwEq : keyword_score cfg { j with title := t₁ } =
      keyword_score cfg { j with title := t₂ } :=
    keyword_foldl_congr _ _ _ hkw 0
  have hvisa : visa_score cfg { j with title := t₁ } =
      visa_score cfg { j with title := t₂ } := rfl
  have hlow : low_applicant_score cfg { j with title := t₁ } =
      low_applicant_score cfg { j with title := t₂ } := rfl
  have hprod : is_product_company { j with title := t₁ } =
      is_product_company { j with title := t₂ } := rfl
  unfold score_total
  rw [hlocEq, hkwEq, hvisa, hlow, hprod]

/-- Witness for C3's amended theorem: "Data Engineer" versus "Backend
Developer" as titles (neither matching a configured keyword or
location) give equal totals. -/
theorem C3_no_title_bonus_witness :
    score_total sampleConfig { title := "Data Engineer" } =
    score_total sampleConfig { title := "Backend Developer" } :=
  C3_no_title_bonus sampleConfig {} "Data Engineer" "Backend Developer"
    (by decide) (by decide)

/-- Counterexample for C5: scoring a record on which the keyword
signals demonstrably fire (score 12 from two keyword hits) attaches no
matchedSignals list at all. -/
theorem C5_counterexample :
    (score_job sampleConfig
      { title := "Data Engineer", snippet := "Azure Databricks" }).score = some 12 ∧
    (score_job sampleConfig
      { title := "Data Engineer", snippet := "Azure Databricks" }).matchedSignals
      = none := by
  refine ⟨by decide, rfl⟩

/-- C5 amended: the scorer attaches only the integer score; it records
no ordered list of fired signal labels — the matchedSignals attribute
is never written by score_job. -/
theorem C5_no_matched_signals (cfg : Config) (j : Job) :
    (score_job cfg j).matchedSignals = j.matchedSignals ∧
    (score_job cfg j).score = some (score_total cfg j) :=
  ⟨rfl, rfl⟩

theorem dedupAux_idem (l : List Job) :
    ∀ seen, dedupAux seen (dedupAux seen l) = dedupAux seen l := by
  induction l with
  | nil => intro seen; rfl
  | cons j rest ih =>
    intro seen
    by_cases h : jobKey j ∈ seen
    · rw [dedupAux, if_pos h]
      exact ih seen
    · rw [dedupAux, if_neg h, dedupAux, if_neg h]
      rw [ih (jobKey j :: seen)]

/-- C6: deduplication is idempotent, and exactly the records agreeing
on (lower-cased title, lower-cased company, raw link) are collapsed:
on a two-record list the second survives iff its key differs. -/
theorem C6_dedup :
    (∀ l : List Job,
      safe_jobs_deduplicate (safe_jobs_deduplicate l) = safe_jobs_deduplicate l) ∧
    (∀ a b : Job, safe_jobs_deduplicate [a, b] =
      if jobKey a = jobKey b then [a] else [a, b]) := by
  constructor
  · intro l
    exact dedupAux_idem l []
  · intro a b
    unfold safe_jobs_deduplicate
    rw [dedupAux, if_neg (List.not_mem_nil _)]
    by_cases h : jobKey a = jobKey b
    · rw [if_pos h, dedupAux,
          if_pos (by rw [← h]; exact List.mem_singleton.mpr rfl)]
      rfl
    · rw [if_neg h, dedupAux,
          if_neg (by simp [List.mem_singleton]; exact fun hc => h hc.symm)]
      rfl

/-- A record whose snippet mentions none of the visa keywords but
whose title does. -/
def jobVisaInTitle : Job :=
  { title := "Data Engineer - visa sponsorship available" }

/-- Counterexample for C7: with the sponsorship flag enabled and
"visa" present in the combined haystack (it is in the title), the visa
signal still contributes 0, because visa_score reads only the snippet
field. -/
theorem C7_counterexample :
    sampleConfig.global_allow_visa_sponsor = true ∧
    strContains (combined_text jobVisaInTitle) "visa" = true ∧
    visa_score sampleConfig jobVisaInTitle = 0 := by
  refine ⟨rfl, by decide, by decide⟩

theorem visa_score_val (cfg : Config) (j : Job) :
    visa_score cfg j =
      if cfg.global_allow_visa_sponsor &&
         visa_keywords.any (fun kw => strContains (lowerStr j.snippet) kw)
      then 20 else 0 := by
  unfold visa_score
  cases hf : cfg.global_allow_visa_sponsor <;>
    cases ha : visa_keywords.any (fun kw => strContains (lowerStr j.snippet) kw) <;>
      simp [hf, ha]

/-- C7 amended: the visa signal contributes its fixed bonus of 20
exactly when the flag is enabled and one of the visa keywords appears
in the lower-cased snippet field alone (not the full haystack); with
the flag disabled it contributes 0, and it never contributes any other
value. -/
theorem C7_visa_signal (cfg : Config) (j : Job) :
    (visa_score cfg j = 20 ↔
      (cfg.global_allow_visa_sponsor = true ∧
       ∃ kw ∈ visa_keywords, strContains (lowerStr j.snippet) kw = true)) ∧
    (cfg.global_allow_visa_sponsor = false → visa_score cfg j = 0) ∧
    (visa_score cfg j = 0 ∨ visa_score cfg j = 20) := by
  rw [visa_score_val]
  cases hf : cfg.global_allow_visa_sponsor <;>
    cases ha : visa_keywords.any (fun kw => strContains (lowerStr j.snippet) kw) <;>
      simp_all [List.any_eq_true]

/-- Witness for C7's amended theorem: flag on and "visa" in the
snippet gives 20; a configuration with the flag off gives 0. -/
theorem C7_visa_signal_witness :
    visa_score {} { snippet := "Visa sponsorship available" } = 20 ∧
    visa_score { global_allow_visa_sponsor := false }
      { snippet := "Visa sponsorship available" } = 0 := by
  constructor
  · exact (C7_visa_signal {} { snippet := "Visa sponsorship available" }).1.mpr
      ⟨rfl, by decide⟩
  · exact (C7_visa_signal { global_allow_visa_sponsor := false }
      { snippet := "Visa sponsorship available" }).2.1 rfl

theorem locScoreAux_nonneg (title link : String) (n : Int) :
    ∀ (l : List String) (i : Int), 0 ≤ i → i + l.length ≤ n →
      0 ≤ locScoreAux title link n i l := by
  intro l
  induction l with
  | nil => intro i _ _; exact le_refl 0
  | cons loc rest ih =>
    intro i hi hlen
    rw [List.length_cons] at hlen
    push_cast at hlen
    unfold locScoreAux
    have h1 : (0:Int) ≤
        (if strContains title (lowerStr loc) || strContains link (lowerStr loc)
         then (n - i) * 12 else 0) := by
      split
      · apply mul_nonneg _ (by norm_num)
        omega
      · exact le_refl 0
    have h2 := ih (i + 1) (by omega) (by omega)
    omega

theorem location_score_nonneg (cfg : Config) (j : Job) :
    0 ≤ location_score cfg j := by
  unfold location_score
  exact locScoreAux_nonneg _ _ _ _ 0 (le_refl 0) (by omega)

theorem keyword_foldl_nonneg (text : String) :
    ∀ (l : List String) (s : Int), 0 ≤ s →
      0 ≤ l.foldl (fun s kw => if strContains text (lowerStr kw) then s + 6 else s) s := by
  intro l
  induction l with
  | nil => intro s hs; exact hs
  | cons kw rest ih =>
    intro s hs
    simp only [List.foldl_cons]
    apply ih
    split <;> omega

theorem keyword_score_nonneg (cfg : Config) (j : Job) :
    0 ≤ keyword_score cfg j :=
  keyword_foldl_nonneg _ _ 0 (le_refl 0)

theorem visa_score_nonneg (cfg : Config) (j : Job) : 0 ≤ visa_score cfg j := by
  rw [visa_score_val]
  split <;> norm_num

theorem low_applicant_score_nonneg (cfg : Config) (j : Job) :
    0 ≤ low_applicant_score cfg j := by
  rcases ha : j.applicants with _ | a <;> simp only [low_applicant_score, ha]
  · exact le_refl 0
  · split <;> norm_num

theorem score_total_nonneg (cfg : Config) (j : Job) :
    0 ≤ score_total cfg j := by
  have h1 := location_score_nonneg cfg j
  have h2 := keyword_score_nonneg cfg j
  have h3 := visa_score_nonneg cfg j
  have h4 := low_applicant_score_nonneg cfg j
  simp only [score_total]
  split
  · omega
  · split <;> omega

/-- Counterexample for C8: no job record under any configuration ever
receives a negative total from the scorer (each signal in matcher.py
is nonnegative and there is no junior penalty), refuting the claim
that some record's computed score is negative. -/
theorem C8_counterexample :
    ¬ ∃ (cfg : Config) (j : Job), ((score_job cfg j).score.getD 0) < 0 := by
  rintro ⟨cfg, j, h⟩
  have hs : (score_job cfg j).score = some (score_total cfg j) := rfl
  rw [hs, Option.getD_some] at h
  exact absurd h (not_lt.mpr (score_total_nonneg cfg j))

/-- C8 amended: the scorer's total is an unclamped integer sum, but
every signal in the implementation is nonnegative (there is no junior
penalty), so the attached score is always at least 0. -/
theorem C8_score_nonneg (cfg : Config) (j : Job) (s : Int)
    (h : (score_job cfg j).score = some s) : 0 ≤ s := by
  have hs : some (score_total cfg j) = some s := h
  rw [← Option.some.inj hs]
  exact score_total_nonneg cfg j

/-- Witness for C8's amended theorem: the empty record under the
sample configuration scores exactly 0, which is nonnegative. -/
theorem C8_score_nonneg_witness :
    (score_job sampleConfig {}).score = some 0 ∧ (0:Int) ≤ 0 :=
  ⟨by decide, C8_score_nonneg sampleConfig {} 0 (by decide)⟩

theorem main_once_creds_missing (cfg : Config) (pages : List String)
    (fetched : List Job) (env : Env) (h : creds_missing env = true) :
    main_once cfg pages fetched env =
      Effect.fetchIndeed "Azure Data Engineer" "Hyderabad"
        :: pages.map Effect.fetchCompany := by
  unfold main_once
  rw [if_pos h]

/-- Counterexample for C9: with SMTP_USER absent, the run's effect
trace still contains the Indeed fetch and a company-page fetch — the
network fetches happen before the credential check, refuting the claim
that the run aborts before any network fetch side effects occur. -/
theorem C9_counterexample :
    (Env.mk none (some "pw")).smtp_user = none ∧
    main_once {} ["https://example.com/careers"] [] (Env.mk none (some "pw")) =
      [Effect.fetchIndeed "Azure Data Engineer" "Hyderabad",
       Effect.fetchCompany "https://example.com/careers"] := by
  exact ⟨rfl, by decide⟩

/-- C9 amended: if either SMTP-credential variable is absent, the run
still performs its fetch phase, deduplication and scoring, then
returns early without raising: its effect trace is exactly the fetch
effects, so no email is ever sent (and no test PDF is written) in that
run. -/
theorem C9_missing_creds_no_email (cfg : Config) (pages : List String)
    (fetched : List Job) (env : Env)
    (h : env.smtp_user = none ∨ env.smtp_pass = none) :
    main_once cfg pages fetched env =
      Effect.fetchIndeed "Azure Data Engineer" "Hyderabad"
        :: pages.map Effect.fetchCompany ∧
    ∀ j : Job, Effect.email j ∉ main_once cfg pages fetched env := by
  have hm : creds_missing env = true := by
    unfold creds_missing
    rcases h with h | h <;> rw [h] <;> simp
  refine ⟨main_once_creds_missing cfg pages fetched env hm, fun j => ?_⟩
  rw [main_once_creds_missing cfg pages fetched env hm]
  intro hmem
  rcases List.mem_cons.mp hmem with h1 | h1
  · exact Effect.noConfusion h1
  · rcases List.mem_map.mp h1 with ⟨u, -, h2⟩
    exact Effect.noConfusion h2

/-- Witness for C9's amended theorem: a concrete run with SMTP_PASS
absent yields exactly the fetch trace and no email effect. -/
theorem C9_missing_creds_no_email_witness :
    main_once {} ["https://jobs.example.org"] [] (Env.mk (some "me") none) =
      [Effect.fetchIndeed "Azure Data Engineer" "Hyderabad",
       Effect.fetchCompany "https://jobs.example.org"] ∧
    Effect.email {} ∉ main_once {} ["https://jobs.example.org"] []
      (Env.mk (some "me") none) := by
  have h := C9_missing_creds_no_email {} ["https://jobs.example.org"] []
    (Env.mk (some "me") none) (Or.inr rfl)
  exact ⟨h.1, h.2 {}⟩

/-- C10: the scorer writes only the score field — title, company,
link, snippet, location, source, posted-at and applicants are all
unchanged by score_job (and so is the matchedSignals field). -/
theorem C10_score_job_frame (cfg : Config) (j : Job) :
    (score_job cfg j).title = j.title ∧
    (score_job cfg j).company = j.company ∧
    (score_job cfg j).link = j.link ∧
    (score_job cfg j).snippet = j.snippet ∧
    (score_job cfg j).location = j.location ∧
    (score_job cfg j).source = j.source ∧
    (score_job cfg j).posted_at = j.posted_at ∧
    (score_job cfg j).applicants = j.applicants ∧
    (score_job cfg j).matchedSignals = j.matchedSignals :=
  ⟨rfl, rfl, rfl, rfl, rfl, rfl, rfl, rfl, rfl⟩

end Jobbot
